import Mathlib

/-!
Verification of the gateway-ts-sdk client library.

The development shallowly embeds the subscription registry, the push
dispatcher, the reconnect coordinator and the request/response helpers of
`src/client.ts` (class `GatewayClient`) and of the earlier
`StreamGatewayClient` variant.  JavaScript `Map` objects are modelled as
ordered association lists (insertion order preserved, `set` replaces in
place or appends, `delete` removes the entry), observer symbols as natural
numbers, and the outcome of a network call as an explicit boolean
parameter.
-/

namespace GatewaySDK

section JsMap

variable {α β : Type} [DecidableEq α]

/-- `Map.get`: value of the first (hence, with unique keys, the only) entry
with the given key. -/
def jget (m : List (α × β)) (k : α) : Option β :=
  (m.find? (fun p => p.1 = k)).map (fun p => p.2)

/-- `Map.has`. -/
def jhas (m : List (α × β)) (k : α) : Bool :=
  (m.find? (fun p => p.1 = k)).isSome

/-- `Map.set`: replace the value in place when the key is present,
otherwise append a new entry at the end (JS insertion order). -/
def jset (m : List (α × β)) (k : α) (v : β) : List (α × β) :=
  if jhas m k then m.map (fun p => if p.1 = k then (k, v) else p)
  else m ++ [(k, v)]

/-- `Map.delete`: remove the entry with the given key. -/
def jdel (m : List (α × β)) (k : α) : List (α × β) :=
  m.filter (fun p => !(decide (p.1 = k)))

/-- `Map.keys` in insertion order. -/
def jkeys (m : List (α × β)) : List α := m.map (fun p => p.1)

end JsMap


/-- Observer handles: the source uses JS `Symbol`s, opaque tokens with
identity comparison; modelled as naturals. -/
abbrev Obs := Nat

/-- The subscription registry `callbacks : Map<string, Map<symbol, cb>>`,
with the callback type abstract. -/
abbrev Inner (κ : Type) := List (Obs × κ)

abbrev Registry (κ : Type) := List (String × Inner κ)

/-- Caller-supplied request headers, `Map<string,string>`. -/
abbrev Hdrs := List (String × String)

/-- The request-id header key. -/
def X_REQ_ID : String := "X-Req-Id"

/-- A request issued on the transport: API path and channel list. -/
structure ServerCall where
  api : String
  cmd : List String
deriving DecidableEq, Repr

/-- Response shape shared by Subscribe/Unsubscribe/Publish responses:
`errMsg : string | null`. -/
structure Resp where
  errMsg : Option String
deriving DecidableEq, Repr

/-- Error conditions raised by the client. -/
inductive GwErr
  | duplicateObserver (cmd : String)
  | notSubscribed (cmd : String)
  | observerNotFound (cmd : String)
  | reservedHeader
  | transport (e : String)
deriving DecidableEq, Repr

/-- Outcome of `subscribeInternal`/`unsubscribeInternal`: result value,
registry afterwards, transport calls issued, and the caller's headers map
afterwards (the code mutates the map the caller passed in). -/
structure OpOutcome (κ : Type) where
  res : Except GwErr Resp
  registry : Registry κ
  calls : List ServerCall
  headers : Hdrs
deriving Repr

/-- The request-id fallback `headers.get(X_REQ_ID) || getNextReqId()`:
`Map.get` yields undefined when the key is absent, and `||` falls through
on every falsy value, so the generated id is used both when the key is
absent and when it maps to the empty string. -/
def orReqId : Option String → String → String
  | some s, fallback => if s = "" then fallback else s
  | none, fallback => fallback

/-- `GatewayClient.subscribeInternal` (client.ts lines 371-415).
`gen` models the `getNextReqId()` value, `serverOk` whether the
`send(rootUri/Subscribe, ...)` call resolves.  Duplicate check first; then
local insertion; then the header mutation and the server call; on server
failure the just-added entry is rolled back, the channel entry being
deleted when it became empty. -/
def subscribeInternal {κ : Type} (reg : Registry κ) (cmd : String) (observer : Obs)
    (callback : κ) (headers : Hdrs) (gen : String) (serverOk : Bool) : OpOutcome κ :=
  let cmdCallbacks := jget reg cmd
  if jhas (cmdCallbacks.getD []) observer then
    ⟨.error (.duplicateObserver cmd), reg, [], headers⟩
  else
    let inner0 := cmdCallbacks.getD []
    let reg1 := jset reg cmd (jset inner0 observer callback)
    let reqId := orReqId (jget headers X_REQ_ID) gen
    let headers1 := jset headers X_REQ_ID reqId
    let call : ServerCall := ⟨"API/Subscribe", [cmd]⟩
    if serverOk then
      ⟨.ok ⟨none⟩, reg1, [call], headers1⟩
    else
      let inner1 := (jget reg1 cmd).getD []
      let inner2 := jdel inner1 observer
      let reg2 := if inner2.length = 0 then jdel reg1 cmd else jset reg1 cmd inner2
      ⟨.error (.transport "send failed"), reg2, [call], headers1⟩

/-- `GatewayClient.unsubscribeInternal` (client.ts lines 443-483).
Checks registration, removes the observer locally; when other observers
remain this is purely local (a fresh success response is returned); when
the last observer is removed the channel entry is deleted and one
`Unsubscribe` call with `cmd = [channel]` is issued (header mutation
happens only on this path). -/
def unsubscribeInternal {κ : Type} (reg : Registry κ) (cmd : String) (observer : Obs)
    (headers : Hdrs) (gen : String) (serverOk : Bool) : OpOutcome κ :=
  match jget reg cmd with
  | none => ⟨.error (.notSubscribed cmd), reg, [], headers⟩
  | some cmdCallbacks =>
    if cmdCallbacks.length = 0 then
      ⟨.error (.notSubscribed cmd), reg, [], headers⟩
    else if !(jhas cmdCallbacks observer) then
      ⟨.error (.observerNotFound cmd), reg, [], headers⟩
    else
      let inner1 := jdel cmdCallbacks observer
      if 0 < inner1.length then
        ⟨.ok ⟨none⟩, jset reg cmd inner1, [], headers⟩
      else
        let reqId := orReqId (jget headers X_REQ_ID) gen
        let headers1 := jset headers X_REQ_ID reqId
        ⟨if serverOk then .ok ⟨none⟩ else .error (.transport "send failed"),
          jdel reg cmd, [⟨"API/Unsubscribe", [cmd]⟩], headers1⟩

/-- `GatewayClient.destroy` clears the registry. -/
def destroyRegistry {κ : Type} (_reg : Registry κ) : Registry κ := []

/-- `observer` is registered under `cmd` in `reg`. -/
def registered {κ : Type} (reg : Registry κ) (cmd : String) (observer : Obs) : Prop :=
  jhas ((jget reg cmd).getD []) observer = true

instance {κ : Type} (reg : Registry κ) (cmd : String) (observer : Obs) :
    Decidable (registered reg cmd observer) := by
  unfold registered; infer_instance

/-- Channel `cmd` has at least one registered observer in `reg`. -/
def hasObserver {κ : Type} (reg : Registry κ) (cmd : String) : Prop :=
  ∃ inner, jget reg cmd = some inner ∧ inner ≠ []

/-- One atomic client operation acting on the registry, with the outcome
of the accompanying server call made explicit. -/
inductive Op (κ : Type)
  | sub (cmd : String) (observer : Obs) (callback : κ) (serverOk : Bool)
  | unsub (cmd : String) (observer : Obs) (serverOk : Bool)
  | destroy

/-- Registry after one operation. -/
def step {κ : Type} (reg : Registry κ) : Op κ → Registry κ
  | .sub c o cb ok => (subscribeInternal reg c o cb [] "req" ok).registry
  | .unsub c o ok => (unsubscribeInternal reg c o [] "req" ok).registry
  | .destroy => destroyRegistry reg

/-- Registry reached from a fresh client by a sequence of operations. -/
def run {κ : Type} (ops : List (Op κ)) : Registry κ :=
  ops.foldl step []

/-- Registry well-formedness: unique channel keys, unique observer keys per
channel, and no empty channel entries. -/
def WF {κ : Type} (reg : Registry κ) : Prop :=
  (jkeys reg).Nodup ∧ (∀ p ∈ reg, (jkeys p.2).Nodup) ∧ ∀ p ∈ reg, p.2 ≠ []

/-
Reconnect coordinator (`Reconnecter`, client.ts lines 42-121).

The timer state is explicit: `retryTimer` is the value of the
`this.retryTimer` field, `pending` the set of `setTimeout` handles that
have been created and neither fired nor cancelled, `nextId` a fresh-handle
counter.  `reconnectDo` is one run of `Reconnecter.do` on a client whose
registry keys are `cmds`, with `sendOk` the outcome of the batched
`Subscribe` call.
-/
structure RecState where
  isActive : Bool
  retryTimer : Option Nat
  pending : List Nat
  nextId : Nat
deriving DecidableEq, Repr

/-- State of a freshly constructed `Reconnecter`. -/
def initRec : RecState := ⟨true, none, [], 0⟩

/-- One run of `Reconnecter.do`: bail out when inactive or when there is
nothing to resubscribe; otherwise issue ONE batched Subscribe call for all
channels; on success cancel the timer held in the `retryTimer` field; on
failure schedule a fresh retry timer, overwriting (without cancelling) the
handle previously held in the field. -/
def reconnectDo (s : RecState) (cmds : List String) (sendOk : Bool) :
    RecState × List ServerCall :=
  if !s.isActive then (s, [])
  else if cmds.length = 0 then (s, [])
  else if sendOk then
    (⟨s.isActive, none,
      s.pending.filter (fun t => !(decide (s.retryTimer = some t))), s.nextId⟩,
      [⟨"API/Subscribe", cmds⟩])
  else
    (⟨s.isActive, some s.nextId, s.pending ++ [s.nextId], s.nextId + 1⟩,
      [⟨"API/Subscribe", cmds⟩])

/-- `Reconnecter.start`, as invoked by the `onPeerClosed` hook after
`client.Recover()` resolves: guard on `isActive`, then run `do`. -/
def onPeerClosedRecover (s : RecState) (cmds : List String) (sendOk : Bool) :
    RecState × List ServerCall :=
  if !s.isActive then (s, []) else reconnectDo s cmds sendOk

/-- `Reconnecter.stop`: deactivate and cancel the timer held in the field. -/
def reconnectStop (s : RecState) : RecState :=
  ⟨false, none,
    s.pending.filter (fun t => !(decide (s.retryTimer = some t))), s.nextId⟩

/-
Push dispatcher (the `onPush` hook installed in the `GatewayClient`
constructor, client.ts lines 253-312).

A callback's behaviour when invoked is one of: return normally, throw
synchronously, or return a promise that later rejects (the declared
callback type returns `void`, so the dispatcher never awaits the returned
value).
-/
inductive CbBeh
  | retOk
  | throwSync
  | asyncReject
deriving DecidableEq, Repr

/-- Observable outcome of one wrapper task
`async ([observerId, callback]) => { try { callback(...) } catch ... }`:
whether the callback was invoked, whether a failure of it was caught and
logged by the wrapper, and whether the callback invocation itself had
settled by the time the wrapper promise (the thing `Promise.allSettled`
waits on) settled. -/
structure WrapOutcome where
  observerId : Obs
  invoked : Bool
  caught : Bool
  callSettled : Bool
deriving DecidableEq, Repr

/-- Semantics of one wrapper task.  A synchronous throw is caught by the
`try`/`catch`; a promise returned by the callback is discarded unawaited,
so the wrapper settles (successfully) while the invocation is still
pending and a later rejection is caught by nobody. -/
def runWrapper (p : Obs × CbBeh) : WrapOutcome :=
  match p.2 with
  | .retOk => ⟨p.1, true, false, true⟩
  | .throwSync => ⟨p.1, true, true, true⟩
  | .asyncReject => ⟨p.1, true, false, false⟩

/-- The push message shape after `plainToClass`: absent JSON fields are
replaced by the class defaults, the empty string. -/
structure PushMsg where
  cmd : String
  data : String
deriving DecidableEq, Repr

/-- `plainToClass(OnPushMessage, json)`: missing fields default to `""`. -/
def parsePush (cmdField dataField : Option String) : PushMsg :=
  ⟨cmdField.getD "", dataField.getD ""⟩

/-- Result of handling one inbound push event. -/
inductive PushOutcome
  | parseError
  | invalidFormat
  | noObservers
  | dispatched (outcomes : List WrapOutcome)
deriving DecidableEq, Repr

/-- The `onPush` hook body: `JSON.parse` failure (`parsed = none`) logs and
returns; a falsy `cmd` or `data` (JS: the empty string) logs and returns;
a channel with no observers logs and returns; otherwise every observer's
wrapper task runs and the handler awaits `Promise.allSettled` of the
wrappers. -/
def onPushHandler (reg : Registry CbBeh) (parsed : Option PushMsg) : PushOutcome :=
  match parsed with
  | none => .parseError
  | some m =>
    if m.cmd = "" ∨ m.data = "" then .invalidFormat
    else
      match jget reg m.cmd with
      | none => .noObservers
      | some cmdCallbacks =>
        if cmdCallbacks.length = 0 then .noObservers
        else .dispatched (cmdCallbacks.map runWrapper)

/-- Observers whose callback was invoked while handling a push. -/
def invokedObservers : PushOutcome → List Obs
  | .dispatched outs => (outs.filter (fun w => w.invoked)).map (fun w => w.observerId)
  | _ => []

/-
Request/response helpers.
-/

/-- Errors of the typed send path. -/
inductive SendErr
  | transport (e : String)
  | parseError (e : String)
  | serverReported (msg : String)
deriving DecidableEq, Repr

/-- JS truthiness of the `errMsg : string | null` field: truthy iff
non-null and non-empty. -/
def errMsgTruthy : Option String → Bool
  | some s => !(decide (s = ""))
  | none => false

/-- `StreamGatewayClient.send` after the transport call: propagate a
transport error; propagate a parse error; throw a server-reported error
when the parsed response carries a truthy `errMsg`; otherwise return the
response.  `tr` is the transport outcome, `parse` the `json.fromJson`
step. -/
def streamSend (tr : Except String String)
    (parse : String → Except String Resp) : Except SendErr Resp :=
  match tr with
  | .error e => .error (.transport e)
  | .ok raw =>
    match parse raw with
    | .error pe => .error (.parseError pe)
    | .ok response =>
      if errMsgTruthy response.errMsg then
        .error (.serverReported (response.errMsg.getD ""))
      else .ok response

/-- `GatewayClient.send` (client.ts lines 553-569) after the transport
call: deserialize the response with
`plainToClass(responseType, JSON.parse(rawResponse))` — a malformed body
makes `JSON.parse` throw and that error propagates to the caller — and
return the deserialized response; there is no inspection of `errMsg`. -/
def gatewaySend (tr : Except String String)
    (parse : String → Except String Resp) : Except SendErr Resp :=
  match tr with
  | .error e => .error (.transport e)
  | .ok raw =>
    match parse raw with
    | .error pe => .error (.parseError pe)
    | .ok response => .ok response

/-- Outcome of `GatewayClient.sendRaw` (client.ts lines 588-616): result,
the caller's headers map after the call, and the header map actually put
on the wire (when a send happened). -/
structure RawOutcome where
  res : Except GwErr String
  headers : Hdrs
  sent : Option Hdrs
deriving Repr

/-- `GatewayClient.sendRaw`: reject a caller-set `api` header; copy the
caller's map (`new Map(headers)`); set the request id and the `api` path
on the copy only; send.  The caller's map is returned untouched. -/
def sendRaw (api : String) (headers : Hdrs) (gen : String)
    (serverRes : Except String String) : RawOutcome :=
  if jhas headers "api" then ⟨.error .reservedHeader, headers, none⟩
  else
    let header := headers
    let reqId := orReqId (jget header X_REQ_ID) gen
    let header1 := jset (jset header X_REQ_ID reqId) "api" api
    match serverRes with
    | .error e => ⟨.error (.transport e), headers, some header1⟩
    | .ok s => ⟨.ok s, headers, some header1⟩

section JsMapLemmas

variable {α β : Type} [DecidableEq α]

theorem jhas_eq_false_iff (m : List (α × β)) (k : α) :
    jhas m k = false ↔ ∀ q ∈ m, q.1 ≠ k := by
  simp [jhas, List.find?_isSome, List.find?_eq_none]

theorem jhas_eq_true_iff (m : List (α × β)) (k : α) :
    jhas m k = true ↔ ∃ q ∈ m, q.1 = k := by
  simp [jhas, List.find?_isSome]

theorem jget_mem {m : List (α × β)} {k : α} {v : β} (h : jget m k = some v) :
    (k, v) ∈ m := by
  unfold jget at h
  cases hf : m.find? (fun p => p.1 = k) with
  | none => rw [hf] at h; simp at h
  | some q =>
    rw [hf] at h
    have hmem := List.mem_of_find?_eq_some hf
    have hk := List.find?_some hf
    simp at hk h
    obtain ⟨q1, q2⟩ := q
    simp at hk
    subst hk; subst h
    exact hmem

theorem jget_isSome_of_jhas {m : List (α × β)} {k : α} (h : jhas m k = true) :
    ∃ v, jget m k = some v := by
  unfold jhas at h
  unfold jget
  cases hf : m.find? (fun p => p.1 = k) with
  | none => rw [hf] at h; simp at h
  | some q => exact ⟨q.2, by simp⟩

theorem mem_jset {m : List (α × β)} {k : α} {v : β} {q : α × β}
    (h : q ∈ jset m k v) : q ∈ m ∨ q = (k, v) := by
  unfold jset at h
  by_cases hk : jhas m k = true
  · rw [if_pos hk] at h
    obtain ⟨p, hp, hpq⟩ := List.mem_map.mp h
    by_cases hpk : p.1 = k
    · right; rw [if_pos hpk] at hpq; exact hpq.symm
    · left; rw [if_neg hpk] at hpq; rw [← hpq]; exact hp
  · rw [if_neg hk] at h
    rcases List.mem_append.mp h with h1 | h1
    · exact Or.inl h1
    · right; simpa using h1

theorem mem_jdel {m : List (α × β)} {k : α} {q : α × β} (h : q ∈ jdel m k) :
    q ∈ m := List.mem_of_mem_filter h

theorem jdel_of_not_has {m : List (α × β)} {k : α} (h : jhas m k = false) :
    jdel m k = m := by
  apply List.filter_eq_self.mpr
  intro q hq
  have := (jhas_eq_false_iff m k).mp h q hq
  simpa using this

theorem jset_of_not_has {m : List (α × β)} {k : α} {v : β} (h : jhas m k = false) :
    jset m k v = m ++ [(k, v)] := by
  unfold jset; rw [h]; simp

theorem jkeys_jset_of_has {m : List (α × β)} {k : α} {v : β} (h : jhas m k = true) :
    jkeys (jset m k v) = jkeys m := by
  unfold jset jkeys
  rw [if_pos h, List.map_map]
  apply List.map_congr_left
  intro p _
  by_cases hpk : p.1 = k
  · simp [hpk]
  · simp [hpk]

theorem jhas_iff_mem_jkeys (m : List (α × β)) (k : α) :
    jhas m k = true ↔ k ∈ jkeys m := by
  rw [jhas_eq_true_iff]
  constructor
  · rintro ⟨q, hq, rfl⟩; exact List.mem_map.mpr ⟨q, hq, rfl⟩
  · intro h
    obtain ⟨q, hq, hqk⟩ := List.mem_map.mp h
    exact ⟨q, hq, hqk⟩

omit [DecidableEq α] in
theorem mem_jkeys_of_mem {m : List (α × β)} {q : α × β} (h : q ∈ m) :
    q.1 ∈ jkeys m :=
  List.mem_map.mpr ⟨q, h, rfl⟩

theorem list_map_self {γ : Type} {f : γ → γ} {l : List γ}
    (h : ∀ a ∈ l, f a = a) : l.map f = l := by
  induction l with
  | nil => rfl
  | cons a t ih =>
    rw [List.map_cons, h a (by simp), ih (fun b hb => h b (by simp [hb]))]

theorem jset_of_has {m : List (α × β)} {k : α} (h : jhas m k = true) (v : β) :
    jset m k v = m.map (fun p => if p.1 = k then (k, v) else p) := by
  unfold jset; rw [if_pos h]

theorem keysNodup_jset {m : List (α × β)} {k : α} {v : β}
    (h : (jkeys m).Nodup) : (jkeys (jset m k v)).Nodup := by
  by_cases hk : jhas m k = true
  · rw [jkeys_jset_of_has hk]; exact h
  · have hk' : jhas m k = false := by simpa using hk
    rw [jset_of_not_has hk']
    unfold jkeys
    rw [List.map_append]
    simp only [List.map_cons, List.map_nil]
    rw [List.nodup_append]
    refine ⟨h, List.nodup_singleton k, ?_⟩
    intro a ha hb
    simp only [List.mem_singleton] at hb
    subst hb
    have h2 := (jhas_iff_mem_jkeys m a).mpr ha
    rw [hk'] at h2
    simp at h2

theorem keysNodup_jdel {m : List (α × β)} {k : α}
    (h : (jkeys m).Nodup) : (jkeys (jdel m k)).Nodup := by
  unfold jdel jkeys
  exact h.sublist (List.Sublist.map _ (List.filter_sublist m))

theorem jget_cons_of_neg {a : α × β} {l : List (α × β)} {k : α}
    (h : ¬ a.1 = k) : jget (a :: l) k = jget l k := by
  unfold jget
  rw [List.find?_cons_of_neg _ (by simpa using h)]

theorem jget_cons_of_pos {a : α × β} {l : List (α × β)} {k : α}
    (h : a.1 = k) : jget (a :: l) k = some a.2 := by
  unfold jget
  rw [List.find?_cons_of_pos _ (by simpa using h)]
  rfl

theorem jhas_cons_elim {a : α × β} {l : List (α × β)} {k : α}
    (h : jhas (a :: l) k = true) (hak : ¬ a.1 = k) : jhas l k = true := by
  rw [jhas_eq_true_iff] at h ⊢
  rcases h with ⟨q, hq, hqk⟩
  rcases List.mem_cons.mp hq with rfl | hql
  · exact absurd hqk hak
  · exact ⟨q, hql, hqk⟩

theorem jget_map_set (m : List (α × β)) (k : α) (v : β) (h : jhas m k = true) :
    jget (m.map (fun p => if p.1 = k then (k, v) else p)) k = some v := by
  induction m with
  | nil => simp [jhas] at h
  | cons a l ih =>
    by_cases hak : a.1 = k
    · rw [List.map_cons, if_pos hak, jget_cons_of_pos rfl]
    · rw [List.map_cons, if_neg hak, jget_cons_of_neg hak]
      exact ih (jhas_cons_elim h hak)

theorem jget_append_single (m : List (α × β)) (k : α) (v : β)
    (h : ∀ q ∈ m, q.1 ≠ k) : jget (m ++ [(k, v)]) k = some v := by
  induction m with
  | nil => simp [jget]
  | cons a l ih =>
    rw [List.cons_append, jget_cons_of_neg (h a (by simp))]
    exact ih (fun q hq => h q (by simp [hq]))

theorem jget_jset_self (m : List (α × β)) (k : α) (v : β) :
    jget (jset m k v) k = some v := by
  by_cases hk : jhas m k = true
  · rw [jset_of_has hk v]
    exact jget_map_set m k v hk
  · have hk' : jhas m k = false := by simpa using hk
    rw [jset_of_not_has hk']
    exact jget_append_single m k v ((jhas_eq_false_iff m k).mp hk')

theorem jhas_jset_self (m : List (α × β)) (k : α) (v : β) :
    jhas (jset m k v) k = true := by
  rw [jhas_eq_true_iff]
  exact ⟨(k, v), jget_mem (jget_jset_self m k v), rfl⟩

theorem jset_jset (m : List (α × β)) (k : α) (v w : β) :
    jset (jset m k v) k w = jset m k w := by
  by_cases hk : jhas m k = true
  · rw [jset_of_has (jhas_jset_self m k v) w, jset_of_has hk v,
      jset_of_has hk w, List.map_map]
    apply List.map_congr_left
    intro p _
    by_cases hpk : p.1 = k
    · simp [hpk]
    · simp [hpk]
  · have hk' : jhas m k = false := by simpa using hk
    rw [jset_of_not_has hk', jset_of_has (by
      rw [jhas_eq_true_iff]; exact ⟨(k, v), by simp, rfl⟩) w,
      jset_of_not_has hk', List.map_append]
    congr 1
    · exact list_map_self (fun p hp =>
        if_neg ((jhas_eq_false_iff m k).mp hk' p hp))
    · simp

theorem jset_jget_self {m : List (α × β)} {k : α} {v : β}
    (hnd : (jkeys m).Nodup) (h : jget m k = some v) : jset m k v = m := by
  have hk : jhas m k = true := by
    rw [jhas_eq_true_iff]
    exact ⟨(k, v), jget_mem h, rfl⟩
  rw [jset_of_has hk v]
  apply list_map_self
  intro p hp
  by_cases hpk : p.1 = k
  · rw [if_pos hpk]
    obtain ⟨p1, p2⟩ := p
    simp only at hpk
    subst hpk
    have hmem : (p1, v) ∈ m := jget_mem h
    have hinj := List.inj_on_of_nodup_map (f := fun q : α × β => q.1)
      (by simpa [jkeys] using hnd)
    have he : (p1, p2) = (p1, v) := hinj hp hmem rfl
    exact he.symm
  · rw [if_neg hpk]

theorem jdel_length_of_has {m : List (α × β)} {k : α}
    (hnd : (jkeys m).Nodup) (h : jhas m k = true) :
    (jdel m k).length + 1 = m.length := by
  induction m with
  | nil => simp [jhas] at h
  | cons a l ih =>
    simp only [jkeys, List.map_cons] at hnd
    have hnd' : (jkeys l).Nodup := (List.nodup_cons.mp hnd).2
    by_cases hak : a.1 = k
    · have hkl : jhas l k = false := by
        rw [jhas_eq_false_iff]
        intro q hq hqk
        exact (List.nodup_cons.mp hnd).1
          (by rw [hak, ← hqk]; exact mem_jkeys_of_mem hq)
      have he : jdel (a :: l) k = jdel l k := by
        unfold jdel
        rw [List.filter_cons]
        simp [hak]
      rw [he, jdel_of_not_has hkl]
      simp
    · have he : jdel (a :: l) k = a :: jdel l k := by
        unfold jdel
        rw [List.filter_cons]
        simp [hak]
      rw [he]
      simp only [List.length_cons]
      have := ih hnd' (jhas_cons_elim h hak)
      omega

theorem jhas_nil (k : α) : jhas ([] : List (α × β)) k = false := rfl

theorem jhas_eq_false_of_jget_none {m : List (α × β)} {k : α}
    (h : jget m k = none) : jhas m k = false := by
  unfold jget at h
  unfold jhas
  cases hf : m.find? (fun p => p.1 = k) with
  | none => rfl
  | some q => rw [hf] at h; simp at h

theorem jhas_eq_true_of_jget_some {m : List (α × β)} {k : α} {v : β}
    (h : jget m k = some v) : jhas m k = true := by
  unfold jget at h
  unfold jhas
  cases hf : m.find? (fun p => p.1 = k) with
  | none => rw [hf] at h; simp at h
  | some q => rfl

theorem jget_eq_none_of_jhas_false {m : List (α × β)} {k : α}
    (h : jhas m k = false) : jget m k = none := by
  unfold jhas at h
  unfold jget
  cases hf : m.find? (fun p => p.1 = k) with
  | none => rfl
  | some q => rw [hf] at h; simp at h

theorem jdel_append (l1 l2 : List (α × β)) (k : α) :
    jdel (l1 ++ l2) k = jdel l1 k ++ jdel l2 k := by
  unfold jdel
  exact List.filter_append _ _

theorem jdel_singleton_pair (k : α) (v : β) : jdel [(k, v)] k = [] := by
  simp [jdel]

theorem jset_ne_nil (m : List (α × β)) (k : α) (v : β) : jset m k v ≠ [] := by
  unfold jset
  by_cases hk : jhas m k = true
  · rw [if_pos hk]
    intro hcon
    have := List.map_eq_nil_iff.mp hcon
    subst this
    simp [jhas] at hk
  · rw [if_neg hk]
    simp

theorem jget_jdel_self (m : List (α × β)) (k : α) : jget (jdel m k) k = none := by
  unfold jget
  rw [List.find?_eq_none.mpr ?_]
  · rfl
  · intro q hq
    have h2 := (List.mem_filter.mp hq).2
    simpa using h2

theorem jdel_singleton_of_has {l : List (α × β)} {k : α}
    (hlen : l.length = 1) (h : jhas l k = true) : jdel l k = [] := by
  match l, hlen with
  | [q], _ =>
    have hk : q.1 = k := by
      rw [jhas_eq_true_iff] at h
      rcases h with ⟨p, hp, hpk⟩
      simp at hp
      subst hp
      exact hpk
    simp [jdel, hk]

end JsMapLemmas

/-! Registry well-formedness lemmas. -/

theorem WF_nil {κ : Type} : WF ([] : Registry κ) := by
  refine ⟨by simp [jkeys], ?_, ?_⟩ <;> intro p hp <;> simp at hp

theorem WF_inner {κ : Type} {reg : Registry κ} {c : String} {inner : Inner κ}
    (hWF : WF reg) (h : jget reg c = some inner) :
    (jkeys inner).Nodup ∧ inner ≠ [] :=
  ⟨hWF.2.1 (c, inner) (jget_mem h), hWF.2.2 (c, inner) (jget_mem h)⟩

theorem WF_jset {κ : Type} {reg : Registry κ} {c : String} {v : Inner κ}
    (hWF : WF reg) (hnd : (jkeys v).Nodup) (hne : v ≠ []) : WF (jset reg c v) := by
  refine ⟨keysNodup_jset hWF.1, ?_, ?_⟩
  · intro p hp
    rcases mem_jset hp with h1 | h1
    · exact hWF.2.1 p h1
    · subst h1; exact hnd
  · intro p hp
    rcases mem_jset hp with h1 | h1
    · exact hWF.2.2 p h1
    · subst h1; exact hne

theorem WF_jdel {κ : Type} {reg : Registry κ} {c : String} (hWF : WF reg) :
    WF (jdel reg c) := by
  refine ⟨keysNodup_jdel hWF.1, ?_, ?_⟩
  · intro p hp; exact hWF.2.1 p (mem_jdel hp)
  · intro p hp; exact hWF.2.2 p (mem_jdel hp)

/-- The inner map used by `subscribeInternal` is well-formed whether or not
the channel already exists. -/
theorem WF_inner0 {κ : Type} {reg : Registry κ} (hWF : WF reg) (c : String) :
    (jkeys ((jget reg c).getD ([] : Inner κ))).Nodup := by
  cases hg : jget reg c with
  | none => simp [jkeys]
  | some inner => simpa using (WF_inner hWF hg).1

/-! ### C1: rollback on subscribe failure -/

/-- C1: if `subscribe` fails because the server `Subscribe` call fails,
the registry afterwards is exactly the registry before the call (the
just-added entry is removed and the channel entry deleted if it became
empty), and a subsequent subscribe for the same channel and observer is
not blocked by stale state. -/
theorem subscribe_rollback {κ : Type} (reg : Registry κ) (cmd : String)
    (observer : Obs) (callback : κ) (headers : Hdrs) (gen : String)
    (hWF : WF reg) (h : ¬ registered reg cmd observer) :
    (subscribeInternal reg cmd observer callback headers gen false).registry = reg ∧
    (subscribeInternal reg cmd observer callback headers gen false).res =
      .error (.transport "send failed") ∧
    ∀ (cb' : κ) (headers' : Hdrs) (gen' : String),
      (subscribeInternal reg cmd observer cb' headers' gen' true).res = .ok ⟨none⟩ := by
  have hcond : jhas ((jget reg cmd).getD []) observer = false := by
    unfold registered at h
    simpa using h
  refine ⟨?_, ?_, ?_⟩
  · cases hc : jget reg cmd with
    | none =>
      have hnothas : jhas reg cmd = false := jhas_eq_false_of_jget_none hc
      have e0 : jset ([] : Inner κ) observer callback = [(observer, callback)] := by
        rw [jset_of_not_has (jhas_nil observer)]
        rfl
      simp only [subscribeInternal, hc, Option.getD_none, jhas_nil,
        Bool.false_eq_true, if_false]
      rw [e0, jget_jset_self reg cmd [(observer, callback)]]
      simp only [Option.getD_some]
      rw [jdel_singleton_pair]
      simp only [List.length_nil, if_pos rfl]
      rw [jset_of_not_has hnothas, jdel_append, jdel_of_not_has hnothas,
        jdel_singleton_pair, List.append_nil]
      simp
    | some inner0 =>
      rw [hc] at hcond
      simp only [Option.getD_some] at hcond
      have hne : inner0 ≠ [] := (WF_inner hWF hc).2
      simp only [subscribeInternal, hc, Option.getD_some, hcond, Bool.false_eq_true,
        if_false]
      have e1 : jset inner0 observer callback = inner0 ++ [(observer, callback)] :=
        jset_of_not_has hcond
      rw [e1, jget_jset_self reg cmd (inner0 ++ [(observer, callback)])]
      simp only [Option.getD_some]
      rw [jdel_append, jdel_of_not_has hcond, jdel_singleton_pair, List.append_nil]
      have hlen : ¬ inner0.length = 0 := by
        intro h0
        exact hne (List.length_eq_zero.mp h0)
      rw [if_neg hlen, jset_jset, jset_jget_self hWF.1 hc]
  · cases hc : jget reg cmd with
    | none =>
      simp [subscribeInternal, hc, jhas_nil]
    | some inner0 =>
      rw [hc] at hcond
      simp only [Option.getD_some] at hcond
      simp [subscribeInternal, hc, hcond]
  · intro cb' headers' gen'
    cases hc : jget reg cmd with
    | none =>
      simp [subscribeInternal, hc, jhas_nil]
    | some inner0 =>
      rw [hc] at hcond
      simp only [Option.getD_some] at hcond
      simp [subscribeInternal, hc, hcond]

/-- Witness for C1 at a concrete registry. -/
theorem subscribe_rollback_witness :
    (subscribeInternal [("c1", [(1, 5)])] "c1" 0 (7 : Nat) [] "g" false).registry =
        [("c1", [(1, 5)])] ∧
      (subscribeInternal [("c1", [(1, 5)])] "c1" 0 (7 : Nat) [] "g" true).res =
        .ok ⟨none⟩ := by
  have hWF : WF [("c1", [(1, 5)])] := by
    refine ⟨?_, ?_, ?_⟩ <;> decide
  have hno : ¬ registered [("c1", [(1, 5)])] "c1" 0 := by decide
  obtain ⟨h1, _, h3⟩ :=
    subscribe_rollback [("c1", [(1, 5)])] "c1" 0 (7 : Nat) [] "g" hWF hno
  exact ⟨h1, h3 7 [] "g"⟩

/-! ### C5: duplicate subscribe rejected without mutation -/

/-- C5: a second subscribe for an already-registered observer fails with
the duplicate-observer condition, performs no registry mutation, attempts
no network call, and does not touch the caller's headers. -/
theorem subscribe_duplicate_rejected {κ : Type} (reg : Registry κ) (cmd : String)
    (observer : Obs) (callback : κ) (headers : Hdrs) (gen : String) (serverOk : Bool)
    (h : registered reg cmd observer) :
    subscribeInternal reg cmd observer callback headers gen serverOk =
      ⟨.error (.duplicateObserver cmd), reg, [], headers⟩ := by
  unfold registered at h
  simp [subscribeInternal, h]

/-- Witness for C5 at a concrete registry. -/
theorem subscribe_duplicate_rejected_witness :
    subscribeInternal [("c1", [(0, 5)])] "c1" 0 (7 : Nat) [] "g" true =
      ⟨.error (.duplicateObserver "c1"), [("c1", [(0, 5)])], [], []⟩ :=
  subscribe_duplicate_rejected [("c1", [(0, 5)])] "c1" 0 7 [] "g" true (by decide)

/-! ### C2: reference counting of server subscriptions -/

/-- C2: with at least two observers on a channel, unsubscribing one is a
purely local removal returning a success response with no server call;
unsubscribing the last remaining observer of a channel deletes the channel
entry and issues exactly one server `Unsubscribe` call with
`cmd = [channel]`. -/
theorem unsubscribe_refcount {κ : Type} (reg reg' : Registry κ) (c : String)
    (inner inner' : Inner κ) (o o' : Obs) (headers headers' : Hdrs)
    (gen gen' : String) (serverOk serverOk' : Bool)
    (hWF : WF reg) (hg : jget reg c = some inner) (ho : jhas inner o = true)
    (h2 : 2 ≤ inner.length)
    (hg' : jget reg' c = some inner') (ho' : jhas inner' o' = true)
    (h1 : inner'.length = 1) :
    unsubscribeInternal reg c o headers gen serverOk =
      ⟨.ok ⟨none⟩, jset reg c (jdel inner o), [], headers⟩ ∧
    (unsubscribeInternal reg' c o' headers' gen' serverOk').calls =
      [⟨"API/Unsubscribe", [c]⟩] ∧
    (unsubscribeInternal reg' c o' headers' gen' serverOk').registry = jdel reg' c ∧
    jget ((unsubscribeInternal reg' c o' headers' gen' serverOk').registry) c = none := by
  refine ⟨?_, ?_⟩
  · have hnd : (jkeys inner).Nodup := (WF_inner hWF hg).1
    have hlen : ¬ inner.length = 0 := by omega
    have hdel : (jdel inner o).length + 1 = inner.length := jdel_length_of_has hnd ho
    have hpos : 0 < (jdel inner o).length := by omega
    simp only [unsubscribeInternal, hg, if_neg hlen, ho, Bool.not_true,
      Bool.false_eq_true, if_false, if_pos hpos]
  · have hlen' : ¬ inner'.length = 0 := by omega
    have hdel' : jdel inner' o' = [] := jdel_singleton_of_has h1 ho'
    have hnpos : ¬ 0 < (jdel inner' o').length := by
      rw [hdel']
      simp
    simp only [unsubscribeInternal, hg', if_neg hlen', ho', Bool.not_true,
      Bool.false_eq_true, if_false, if_neg hnpos]
    exact ⟨trivial, trivial, jget_jdel_self reg' c⟩

/-- Witness for C2 at concrete registries. -/
theorem unsubscribe_refcount_witness :
    unsubscribeInternal [("c1", [(0, 5), (1, 6)])] "c1" 0 [] "g" true =
      ⟨.ok ⟨none⟩, jset [("c1", [(0, 5), (1, 6)])] "c1"
        (jdel [(0, 5), (1, 6)] 0), [], []⟩ ∧
    (unsubscribeInternal [("c1", [(1, (6 : Nat))])] "c1" 1 [] "g" true).calls =
      [⟨"API/Unsubscribe", ["c1"]⟩] := by
  have hWF : WF [("c1", [(0, 5), (1, (6 : Nat))])] := by
    refine ⟨?_, ?_, ?_⟩ <;> decide
  obtain ⟨ha, hb, _, _⟩ :=
    unsubscribe_refcount [("c1", [(0, 5), (1, 6)])] [("c1", [(1, (6 : Nat))])]
      "c1" [(0, 5), (1, 6)] [(1, 6)] 0 1 [] [] "g" "g" true true
      hWF (by decide) (by decide) (by decide) (by decide) (by decide) (by decide)
  exact ⟨ha, hb⟩

/-! ### C6: no empty channel entries, an invariant of all reachable states -/

theorem WF_subscribe {κ : Type} (reg : Registry κ) (c : String) (o : Obs) (cb : κ)
    (headers : Hdrs) (gen : String) (ok : Bool) (hWF : WF reg) :
    WF (subscribeInternal reg c o cb headers gen ok).registry := by
  by_cases hdup : jhas ((jget reg c).getD []) o = true
  · simp only [subscribeInternal, hdup, if_true]
    exact hWF
  · have hdup' : jhas ((jget reg c).getD []) o = false := by simpa using hdup
    have hin : (jkeys ((jget reg c).getD ([] : Inner κ))).Nodup := WF_inner0 hWF c
    have hWF1 : WF (jset reg c (jset ((jget reg c).getD []) o cb)) :=
      WF_jset hWF (keysNodup_jset hin) (jset_ne_nil _ o cb)
    cases ok with
    | true =>
      simp only [subscribeInternal, hdup', Bool.false_eq_true, if_false, if_true]
      exact hWF1
    | false =>
      simp only [subscribeInternal, hdup', Bool.false_eq_true, if_false]
      rw [jget_jset_self]
      simp only [Option.getD_some]
      by_cases hlen :
          (jdel (jset ((jget reg c).getD []) o cb) o).length = 0
      · rw [if_pos hlen]
        exact WF_jdel hWF1
      · rw [if_neg hlen]
        refine WF_jset hWF1 (keysNodup_jdel (keysNodup_jset hin)) ?_
        intro hcon
        rw [hcon] at hlen
        simp at hlen

theorem WF_unsubscribe {κ : Type} (reg : Registry κ) (c : String) (o : Obs)
    (headers : Hdrs) (gen : String) (ok : Bool) (hWF : WF reg) :
    WF (unsubscribeInternal reg c o headers gen ok).registry := by
  cases hg : jget reg c with
  | none =>
    simp only [unsubscribeInternal, hg]
    exact hWF
  | some inner =>
    by_cases hlen : inner.length = 0
    · simp only [unsubscribeInternal, hg, if_pos hlen]
      exact hWF
    · by_cases ho : jhas inner o = true
      · by_cases hpos : 0 < (jdel inner o).length
        · simp only [unsubscribeInternal, hg, if_neg hlen, ho, Bool.not_true,
            Bool.false_eq_true, if_false, if_pos hpos]
          refine WF_jset hWF (keysNodup_jdel (WF_inner hWF hg).1) ?_
          intro hcon
          rw [hcon] at hpos
          simp at hpos
        · simp only [unsubscribeInternal, hg, if_neg hlen, ho, Bool.not_true,
            Bool.false_eq_true, if_false, if_neg hpos]
          exact WF_jdel hWF
      · have ho' : jhas inner o = false := by simpa using ho
        simp only [unsubscribeInternal, hg, if_neg hlen, ho', Bool.not_false, if_true]
        exact hWF

theorem WF_step {κ : Type} (reg : Registry κ) (op : Op κ) (hWF : WF reg) :
    WF (step reg op) := by
  cases op with
  | sub c o cb ok => exact WF_subscribe reg c o cb [] "req" ok hWF
  | unsub c o ok => exact WF_unsubscribe reg c o [] "req" ok hWF
  | destroy => exact WF_nil

theorem WF_foldl {κ : Type} (ops : List (Op κ)) (reg : Registry κ) (hWF : WF reg) :
    WF (ops.foldl step reg) := by
  induction ops generalizing reg with
  | nil => exact hWF
  | cons op rest ih => exact ih (step reg op) (WF_step reg op hWF)

theorem WF_run {κ : Type} (ops : List (Op κ)) : WF (run ops) :=
  WF_foldl ops [] WF_nil

/-- C6: in every registry state reachable by any sequence of subscribe
(including failure rollback), unsubscribe, and destroy operations, a
channel key exists in the callbacks map if and only if at least one
observer is registered under it — there are never empty channel
entries. -/
theorem registry_no_empty_channels {κ : Type} (ops : List (Op κ)) (c : String) :
    jhas (run ops) c = true ↔ hasObserver (run ops) c := by
  constructor
  · intro h
    obtain ⟨inner, hg⟩ := jget_isSome_of_jhas h
    exact ⟨inner, hg, (WF_inner (WF_run ops) hg).2⟩
  · rintro ⟨inner, hg, _⟩
    exact jhas_eq_true_of_jget_some hg

/-! ### C7: batched resubscription -/

/-- C7: on a resubscription attempt, if no channel has an observer then no
network call is made; otherwise exactly one batched `Subscribe` call is
issued whose channel list contains every channel with at least one live
observer. -/
theorem reconnect_batched {κ : Type} (reg : Registry κ) (s : RecState) (sendOk : Bool)
    (hWF : WF reg) (hact : s.isActive = true) :
    ((∀ c, ¬ hasObserver reg c) → (reconnectDo s (jkeys reg) sendOk).2 = []) ∧
    ((∃ c, hasObserver reg c) →
      (reconnectDo s (jkeys reg) sendOk).2 = [⟨"API/Subscribe", jkeys reg⟩] ∧
      ∀ c, hasObserver reg c → c ∈ jkeys reg) := by
  constructor
  · intro hnone
    have hnil : reg = [] := by
      cases hr : reg with
      | nil => rfl
      | cons p t =>
        exfalso
        apply hnone p.1
        refine ⟨p.2, ?_, ?_⟩
        · rw [hr]
          exact jget_cons_of_pos rfl
        · exact hWF.2.2 p (by rw [hr]; simp)
    subst hnil
    simp [reconnectDo, hact, jkeys]
  · rintro ⟨c, inner, hg, _⟩
    have hk : c ∈ jkeys reg := mem_jkeys_of_mem (jget_mem hg)
    have hlen : ¬ (jkeys reg).length = 0 := by
      intro h0
      rw [List.length_eq_zero.mp h0] at hk
      simp at hk
    constructor
    · cases sendOk <;> simp [reconnectDo, hact, hlen]
    · rintro c' ⟨inner', hg', _⟩
      exact mem_jkeys_of_mem (jget_mem hg')

/-- Witness for C7 at a concrete registry with observers on two channels. -/
theorem reconnect_batched_witness :
    (reconnectDo initRec
        (jkeys ([("a", [(0, 0)]), ("b", [(1, 0)])] : Registry Nat)) true).2 =
      [⟨"API/Subscribe", jkeys ([("a", [(0, 0)]), ("b", [(1, 0)])] : Registry Nat)⟩] ∧
    jkeys ([("a", [(0, 0)]), ("b", [(1, 0)])] : Registry Nat) = ["a", "b"] := by
  have h := reconnect_batched ([("a", [(0, 0)]), ("b", [(1, 0)])] : Registry Nat)
    initRec true ⟨by decide, by decide, by decide⟩ rfl
  exact ⟨(h.2 ⟨"a", [(0, 0)], by decide, by decide⟩).1, by decide⟩

/-! ### C8: peer-closed while Retrying -/

/-- C8 as stated is false on the code: a peer-closed event while a retry
timer is pending does trigger an immediate fresh attempt, but no code path
cancels the pending timer at that point; if the fresh attempt fails, the
`retryTimer` field is overwritten with the new timer handle and the old
timer is left pending, so two retry timers are pending at once. -/
theorem reconnect_supersede_cex :
    (reconnectDo initRec ["a"] false).1.retryTimer = some 0 ∧
    (reconnectDo initRec ["a"] false).1.pending = [0] ∧
    (onPeerClosedRecover (reconnectDo initRec ["a"] false).1 ["a"] false).2 =
      [⟨"API/Subscribe", ["a"]⟩] ∧
    (onPeerClosedRecover (reconnectDo initRec ["a"] false).1 ["a"] false).1.pending =
      [0, 1] ∧
    0 ∈ (onPeerClosedRecover (reconnectDo initRec ["a"] false).1 ["a"] false).1.pending := by
  refine ⟨rfl, rfl, rfl, rfl, by decide⟩

/-- C8 amended: a new peer-closed event always triggers an immediate fresh
attempt; the pending retry timer is cancelled only when that attempt
succeeds; when it fails, a new retry timer is scheduled and the previously
pending timer is not cancelled. -/
theorem reconnect_supersede_amended (s : RecState) (cmds : List String) (sendOk : Bool)
    (hact : s.isActive = true) (hne : ¬ cmds.length = 0) :
    (onPeerClosedRecover s cmds sendOk).2 = [⟨"API/Subscribe", cmds⟩] ∧
    (sendOk = true →
      (onPeerClosedRecover s cmds sendOk).1.retryTimer = none ∧
      (onPeerClosedRecover s cmds sendOk).1.pending =
        s.pending.filter (fun t => !(decide (s.retryTimer = some t)))) ∧
    (sendOk = false →
      (onPeerClosedRecover s cmds sendOk).1.retryTimer = some s.nextId ∧
      (onPeerClosedRecover s cmds sendOk).1.pending = s.pending ++ [s.nextId]) := by
  cases sendOk <;> simp [onPeerClosedRecover, reconnectDo, hact, hne]

/-- Witness for the amended C8, from a state with a pending retry timer. -/
theorem reconnect_supersede_amended_witness :
    (onPeerClosedRecover ⟨true, some 0, [0], 1⟩ ["a"] false).2 =
      [⟨"API/Subscribe", ["a"]⟩] ∧
    (onPeerClosedRecover ⟨true, some 0, [0], 1⟩ ["a"] false).1.pending = [0] ++ [1] := by
  have h := reconnect_supersede_amended ⟨true, some 0, [0], 1⟩ ["a"] false rfl (by decide)
  exact ⟨h.1, (h.2.2 rfl).2⟩

/-! ### C3: fan-out isolation -/

/-- C3 as stated is false on the code: an asynchronous rejection is not
caught (the wrapper's `try`/`catch` only guards the synchronous call, and
the promise a callback returns is discarded unawaited), and the handling
of the push completes although that invocation has not settled.  Both
observers are still invoked. -/
theorem dispatch_async_rejection_cex :
    onPushHandler [("c2", [(0, CbBeh.asyncReject), (1, CbBeh.retOk)])]
        (some ⟨"c2", "payload"⟩) =
      .dispatched [⟨0, true, false, false⟩, ⟨1, true, false, true⟩] ∧
    (runWrapper (0, CbBeh.asyncReject)).caught = false ∧
    (runWrapper (0, CbBeh.asyncReject)).callSettled = false := by
  refine ⟨by decide, rfl, rfl⟩

/-- C3 amended: every registered callback is invoked exactly once (the
fan-out maps each observer entry independently, so no failure prevents a
sibling's invocation and nothing is retried); a synchronous throw is
caught and logged for that observer only; but an asynchronous rejection is
not caught, and the handling of the push completes when all synchronous
invocations have returned, without waiting for a promise a callback
returned. -/
theorem dispatch_isolation_amended (reg : Registry CbBeh) (m : PushMsg)
    (inner : Inner CbBeh)
    (hc : ¬ m.cmd = "") (hd : ¬ m.data = "") (hg : jget reg m.cmd = some inner)
    (hne : ¬ inner.length = 0) :
    onPushHandler reg (some m) = .dispatched (inner.map runWrapper) ∧
    (inner.map runWrapper).length = inner.length ∧
    ∀ p ∈ inner,
      (runWrapper p).observerId = p.1 ∧
      (runWrapper p).invoked = true ∧
      ((runWrapper p).caught = true ↔ p.2 = CbBeh.throwSync) ∧
      ((runWrapper p).callSettled = true ↔ ¬ p.2 = CbBeh.asyncReject) := by
  have hor : ¬ (m.cmd = "" ∨ m.data = "") := by
    rintro (h1 | h1)
    · exact hc h1
    · exact hd h1
  refine ⟨?_, by simp, ?_⟩
  · simp only [onPushHandler, if_neg hor, hg, if_neg hne]
  · intro p _
    cases hp2 : p.2 <;> simp [runWrapper, hp2]

/-- Witness for the amended C3 with three observers: one throwing
synchronously, one returning, one rejecting asynchronously. -/
theorem dispatch_isolation_amended_witness :
    onPushHandler
        [("c2", [(0, CbBeh.throwSync), (1, CbBeh.retOk), (2, CbBeh.asyncReject)])]
        (some ⟨"c2", "d"⟩) =
      .dispatched
        ([(0, CbBeh.throwSync), (1, CbBeh.retOk), (2, CbBeh.asyncReject)].map
          runWrapper) :=
  (dispatch_isolation_amended
    [("c2", [(0, CbBeh.throwSync), (1, CbBeh.retOk), (2, CbBeh.asyncReject)])]
    ⟨"c2", "d"⟩ [(0, CbBeh.throwSync), (1, CbBeh.retOk), (2, CbBeh.asyncReject)]
    (by decide) (by decide) (by decide) (by decide)).1

/-! ### C10: empty cmd or data field drops the push -/

/-- C10: a push whose JSON parses but whose `cmd` or `data` equals the
empty string is treated as invalid exactly as if the field were absent
(`plainToClass` defaults a missing field to the empty string): the handler
returns `invalidFormat` and no observer callback is invoked. -/
theorem push_empty_field_dropped (reg : Registry CbBeh) (m : PushMsg)
    (h : m.cmd = "" ∨ m.data = "") :
    onPushHandler reg (some m) = .invalidFormat ∧
    invokedObservers (onPushHandler reg (some m)) = [] ∧
    (∀ d : Option String, parsePush none d = parsePush (some "") d) ∧
    (∀ c : Option String, parsePush c none = parsePush c (some "")) := by
  have h1 : onPushHandler reg (some m) = .invalidFormat := by
    simp only [onPushHandler, if_pos h]
  exact ⟨h1, by rw [h1]; rfl, fun d => rfl, fun c => rfl⟩

/-- Witness for C10: a push with a present-but-empty `cmd` is dropped even
though an observer is registered for some channel. -/
theorem push_empty_field_dropped_witness :
    onPushHandler [("c", [(0, CbBeh.retOk)])] (some ⟨"", "x"⟩) = .invalidFormat ∧
    invokedObservers (onPushHandler [("c", [(0, CbBeh.retOk)])] (some ⟨"", "x"⟩)) =
      [] := by
  have h := push_empty_field_dropped [("c", [(0, CbBeh.retOk)])] ⟨"", "x"⟩ (Or.inl rfl)
  exact ⟨h.1, h.2.1⟩

/-! ### C4: server-reported errMsg handling in send -/

/-- C4 as stated is false for `GatewayClient.send`: on the same transport
outcome and the same successfully parsed response carrying a truthy
(non-empty) `errMsg`, the older `StreamGatewayClient.send` fails with a
server-reported error while `GatewayClient.send` returns the response as a
success. -/
theorem send_errmsg_unchecked_cex :
    gatewaySend (.ok "raw") (fun _ => .ok ⟨some "boom"⟩) = .ok ⟨some "boom"⟩ ∧
    errMsgTruthy (some "boom") = true ∧
    streamSend (.ok "raw") (fun _ => .ok ⟨some "boom"⟩) =
      .error (.serverReported "boom") := by
  refine ⟨rfl, by decide, ?_⟩
  simp [streamSend, errMsgTruthy]

/-- C4 amended: `StreamGatewayClient.send` fails with `ServerReportedError`
carrying the message exactly when the parsed response has a non-empty
`errMsg`, and returns the response otherwise; `GatewayClient.send`
performs no such check: with the same transport outcome and the same
deserialization outcome it returns the deserialized response even when
`errMsg` is non-empty, and fails only on a transport error or on a
malformed response body (the deserialization throw propagates). -/
theorem send_errmsg_amended (raw tr pe : String)
    (parse : String → Except String Resp) (resp : Resp) (msg : String) :
    (parse raw = .ok resp → resp.errMsg = some msg → ¬ msg = "" →
      streamSend (.ok raw) parse = .error (.serverReported msg) ∧
      gatewaySend (.ok raw) parse = .ok resp) ∧
    (parse raw = .ok resp → errMsgTruthy resp.errMsg = false →
      streamSend (.ok raw) parse = .ok resp ∧
      gatewaySend (.ok raw) parse = .ok resp) ∧
    (parse raw = .error pe →
      streamSend (.ok raw) parse = .error (.parseError pe) ∧
      gatewaySend (.ok raw) parse = .error (.parseError pe)) ∧
    streamSend (.error tr) parse = .error (.transport tr) ∧
    gatewaySend (.error tr) parse = .error (.transport tr) := by
  refine ⟨?_, ?_, ?_, rfl, rfl⟩
  · intro hp hm hne
    constructor
    · simp only [streamSend, hp]
      rw [hm]
      have ht : errMsgTruthy (some msg) = true := by simp [errMsgTruthy, hne]
      rw [if_pos ht]
      simp
    · simp only [gatewaySend, hp]
  · intro hp hf
    constructor
    · simp only [streamSend, hp]
      rw [hf]
      simp
    · simp only [gatewaySend, hp]
  · intro hp
    exact ⟨by simp only [streamSend, hp], by simp only [gatewaySend, hp]⟩

/-- Witness for the amended C4: the two clients diverge on the same
parsed response with a non-empty `errMsg`. -/
theorem send_errmsg_amended_witness :
    streamSend (.ok "r") (fun _ => .ok ⟨some "boom"⟩) =
      .error (.serverReported "boom") ∧
    gatewaySend (.ok "r") (fun _ => .ok ⟨some "boom"⟩) = .ok ⟨some "boom"⟩ := by
  have h := send_errmsg_amended "r" "t" "pe" (fun _ => .ok ⟨some "boom"⟩)
    ⟨some "boom"⟩ "boom"
  exact h.1 rfl rfl (by decide)

/-! ### C9: copying of caller-supplied header maps -/

/-- C9 as stated is false on the code: `subscribe` writes the generated
request id into the very map the caller passed (no copy is made before the
mutation), so a caller map lacking `X-Req-Id` gains an entry. -/
theorem headers_mutation_cex :
    (subscribeInternal ([] : Registry Nat) "c1" 0 7 [] "gen-1" true).headers =
      [("X-Req-Id", "gen-1")] ∧
    ([] : Hdrs) ≠ [("X-Req-Id", "gen-1")] := by
  exact ⟨rfl, by decide⟩

/-- C9 amended: `sendRaw` (and hence `publish`, `ping` and `send`, which
add nothing to the caller's map themselves) copies the caller's map before
adding the request id and the `api` header, leaving the caller's map
unchanged; `subscribe`, and `unsubscribe` on its server-call path, instead
set the request id directly on the caller's map: the map is unchanged when
it already contains a non-empty `X-Req-Id`; when the key is absent it
gains exactly the entry `(X-Req-Id, generated id)`; and when the key is
present but maps to the empty string (falsy under `||`) the entry is
overwritten with a generated id. -/
theorem headers_mutation_amended {κ : Type} (reg : Registry κ) (c : String) (o : Obs)
    (cb : κ) (headers : Hdrs) (gen : String) (ok : Bool) (api : String)
    (serverRes : Except String String)
    (hnd : (jkeys headers).Nodup) (hno : ¬ registered reg c o) :
    (sendRaw api headers gen serverRes).headers = headers ∧
    (subscribeInternal reg c o cb headers gen ok).headers =
      jset headers X_REQ_ID (orReqId (jget headers X_REQ_ID) gen) ∧
    (∀ v, jget headers X_REQ_ID = some v → ¬ v = "" →
      (subscribeInternal reg c o cb headers gen ok).headers = headers) ∧
    (jget headers X_REQ_ID = some "" →
      (subscribeInternal reg c o cb headers gen ok).headers =
        jset headers X_REQ_ID gen) ∧
    (jhas headers X_REQ_ID = false →
      (subscribeInternal reg c o cb headers gen ok).headers =
        headers ++ [(X_REQ_ID, gen)]) ∧
    (∀ (reg2 : Registry κ) (inner2 : Inner κ),
      jget reg2 c = some inner2 → jhas inner2 o = true → inner2.length = 1 →
      (unsubscribeInternal reg2 c o headers gen ok).headers =
        jset headers X_REQ_ID (orReqId (jget headers X_REQ_ID) gen)) := by
  have hcond : jhas ((jget reg c).getD []) o = false := by
    unfold registered at hno
    simpa using hno
  have hsub : (subscribeInternal reg c o cb headers gen ok).headers =
      jset headers X_REQ_ID (orReqId (jget headers X_REQ_ID) gen) := by
    cases ok <;> simp [subscribeInternal, hcond]
  refine ⟨?_, hsub, ?_, ?_, ?_, ?_⟩
  · cases serverRes <;> by_cases hapi : jhas headers "api" = true <;>
      simp [sendRaw, hapi]
  · intro v hv hvne
    rw [hsub, hv]
    have he : orReqId (some v) gen = v := by simp [orReqId, hvne]
    rw [he]
    exact jset_jget_self hnd hv
  · intro hv
    rw [hsub, hv]
    rfl
  · intro hnot
    rw [hsub, jget_eq_none_of_jhas_false hnot]
    exact jset_of_not_has hnot
  · intro reg2 inner2 hg2 ho2 hlen2
    have hl : ¬ inner2.length = 0 := by omega
    have hdel := jdel_singleton_of_has hlen2 ho2
    have hnpos : ¬ 0 < (jdel inner2 o).length := by
      rw [hdel]
      simp
    simp only [unsubscribeInternal, hg2, if_neg hl, ho2, Bool.not_true,
      Bool.false_eq_true, if_false, if_neg hnpos]

/-- Witness for the amended C9, exercising both the non-empty-id case
(map unchanged) and the present-but-empty case (entry overwritten with the
generated id). -/
theorem headers_mutation_amended_witness :
    (sendRaw "API/Publish" [("X-Req-Id", "u1")] "g" (.ok "resp")).headers =
      [("X-Req-Id", "u1")] ∧
    (subscribeInternal ([] : Registry Nat) "c1" 0 7
      [("X-Req-Id", "u1")] "g" true).headers = [("X-Req-Id", "u1")] ∧
    (subscribeInternal ([] : Registry Nat) "c1" 0 7
      [("X-Req-Id", "")] "g" true).headers = jset [("X-Req-Id", "")] X_REQ_ID "g" := by
  have h1 := headers_mutation_amended ([] : Registry Nat) "c1" 0 7
    [("X-Req-Id", "u1")] "g" true "API/Publish" (.ok "resp") (by decide) (by decide)
  have h2 := headers_mutation_amended ([] : Registry Nat) "c1" 0 7
    [("X-Req-Id", "")] "g" true "API/Publish" (.ok "resp") (by decide) (by decide)
  exact ⟨h1.1, h1.2.2.1 "u1" (by decide) (by decide), h2.2.2.2.1 (by decide)⟩

end GatewaySDK
